import Mathlib

/-!
Shallow embedding of the core of fast_filter_branch.py: the object records
(Commit, Tag, TreeEntry), the gateway cache, the tree operations, the
do_filter rewrite loop and the update_refs reference updater, together with
theorems settling the specification claims about them.

Python strings are modelled as Lean `String`; the handful of `str.split`
variants the source uses are reimplemented structurally over `String.data`
so that every definition evaluates inside the kernel.  Stateful code is
modelled by explicit state passing; child-process writes are modelled as
logs of emitted effects.
-/

namespace FastFilterBranch

/-- Well-known hash of the empty git tree (fast_filter_branch.py line 41). -/
def GIT_EMPTY_TREE_HASH : String := "4b825dc642cb6eb9a060e54bf8d69288fbee4904"

/-- All-zero hash, used to delete refs (line 42). -/
def ALL_ZERO_HASH : String := "0000000000000000000000000000000000000000"

/-- object_type_from_mode (lines 44-51). -/
def object_type_from_mode (mode : String) : String :=
  if mode = "40000" then "tree"
  else if mode = "160000" then "commit"
  else "blob"

/-- Is `sep` a literal prefix of `s`?  Helper for the Python `str` operations. -/
def listStartsWith : List Char → List Char → Bool
  | [], _ => true
  | _ :: _, [] => false
  | a :: as, b :: bs => a == b && listStartsWith as bs

/-- Split around the first occurrence of `sep` in `s` (none if absent).
Models Python `s.split(sep, 1)` succeeding, and `s.find(sep)`. -/
def splitFirst (sep : List Char) : List Char → Option (List Char × List Char)
  | [] => if listStartsWith sep [] then some ([], []) else none
  | c :: rest =>
    if listStartsWith sep (c :: rest) then some ([], (c :: rest).drop sep.length)
    else (splitFirst sep rest).map (fun p => (c :: p.1, p.2))

/-- Python `s.split(sep, 1)` when it yields two pieces; `none` when `sep` is absent
(in which case a Python 2-tuple unpacking of the result raises ValueError). -/
def pySplitOnce (s sep : String) : Option (String × String) :=
  (splitFirst sep.data s.data).map (fun p => (String.mk p.1, String.mk p.2))

/-- Python `sep in s` for nonempty `sep`. -/
def pyContains (s sep : String) : Bool :=
  (splitFirst sep.data s.data).isSome

/-- Python `s.split(sep)[0]` for nonempty `sep`: everything before the first
occurrence, or `s` itself when `sep` is absent. -/
def pySplitHead (s sep : String) : String :=
  match splitFirst sep.data s.data with
  | some p => String.mk p.1
  | none => s

/-- Python `s.split(c)` for the single newline character. -/
def splitLinesChars : List Char → List (List Char)
  | [] => [[]]
  | c :: rest =>
    if c = '\n' then [] :: splitLinesChars rest
    else
      match splitLinesChars rest with
      | [] => [[c]]
      | l :: ls => (c :: l) :: ls

/-- Python `s.split('\n')`. -/
def pySplitNl (s : String) : List String :=
  (splitLinesChars s.data).map String.mk

/-- Python `s.startswith(c)` for a single character `c`. -/
def pyStartsWithChar (s : String) (c : Char) : Bool :=
  match s.data with
  | [] => false
  | a :: _ => a == c

/-- Commit record (lines 54-90).  Header fields that parsing leaves unset
(Python `None`) are modelled as `""`; no claim distinguishes `None` from the
empty string.  `Commit.copy` (lines 72-75) produces a field-equal record, so
on values it is the identity.  `Commit.__eq__` (lines 77-84) compares all
seven fields, i.e. it is structural equality of this record. -/
structure Commit where
  treehash : String
  parents : List String
  author : String
  author_date : String
  committer : String
  committer_date : String
  msg : String
deriving DecidableEq, Repr, Inhabited

/-- Tag record (lines 92-118).  `Tag.__eq__` (lines 109-115) is field-wise,
i.e. structural equality of this record. -/
structure Tag where
  object_hash : String
  object_type : String
  name : String
  tagger : String
  tagger_date : String
  msg : String
deriving DecidableEq, Repr, Inhabited

/-- FilterManager.get_mark (lines 515-519): only strings beginning with ':'
are forwarded to the fast-import channel's get-mark command (`resolve`);
anything else is returned unchanged.  The Bool records whether the import
channel was consulted. -/
def fmGetMark (resolve : String → String) (mark : String) : String × Bool :=
  if pyStartsWithChar mark ':' then (resolve mark, true) else (mark, false)

/-- do_filter lines 839-844: when writing the persistent revmap file, each
revmap value is passed through get_mark so that marks become concrete hashes. -/
def writeRevmapPairs (resolve : String → String) (rm : List (String × String)) :
    List (String × String) :=
  rm.map (fun p => (p.1, (fmGetMark resolve p.2).1))

/-- Heap model for FilterManager._cached_commits (line 484): Commit records
live in a heap addressed by numeric refs (modelling Python object identity);
the cache maps a git hash or mark to the heap ref of the record cached for it. -/
structure GwState where
  heap : List Commit
  cache : List (String × Nat)
deriving Repr

/-- Dereference a heap ref. -/
def gwRead (s : GwState) (r : Nat) : Commit := s.heap.getD r default

/-- FilterManager.get_commit (lines 501-507).  On a cache hit the cached
record itself is returned (line 504 returns `commit`, not a copy); on a miss
the freshly parsed record is cached and a copy of it (a new heap cell with
equal fields, line 507's `commit.copy()`) is returned. -/
def gwGetCommit (parse : String → Commit) (s : GwState) (githash : String) :
    Nat × GwState :=
  match s.cache.lookup githash with
  | some r => (r, s)
  | none =>
    let c := parse githash
    let rc := s.heap.length
    (rc + 1, { heap := (s.heap ++ [c]) ++ [c], cache := (githash, rc) :: s.cache })

/-- FilterManager.write_commit (lines 528-531): the caller's record (heap ref
`r`) is stored in the cache under the returned mark, without copying. -/
def gwWriteCommit (s : GwState) (r : Nat) (mark : String) : GwState :=
  { s with cache := (mark, r) :: s.cache }

/-- A caller mutating the msg field of a record it was handed
(Python `commit.msg = m` on the returned object). -/
def gwSetMsg (s : GwState) (r : Nat) (m : String) : GwState :=
  { s with heap := s.heap.set r { gwRead s r with msg := m } }

/-- TreeEntry.__eq__ (lines 136-143) over a store of records: the refs `i`, `j`
are Python object identities indexing a store of (mode, githash) pairs;
`self is other` is ref equality (line 138), after which both modes must agree
and both hashes must be known and equal. -/
def treeEntryEqRef (store : List (String × Option String)) (i j : Nat) : Bool :=
  i == j ||
    match store[i]?, store[j]? with
    | some (m1, g1), some (m2, g2) => m1 == m2 && g1.isSome && g2.isSome && g1 == g2
    | _, _ => false

/-- Accumulated header fields of parse_commit, plus the encoding seen. -/
structure PCHeaders where
  treehash : String
  parents : List String
  author : String
  author_date : String
  committer : String
  committer_date : String
  encoding : Option String
deriving Repr

/-- Lift an optional value into Except, modelling the given Python error. -/
def ofOption (msg : String) : Option α → Except String α
  | some a => .ok a
  | none => .error msg

/-- Header loop of CatFileInput.parse_commit (lines 309-334).  Continuation
lines (leading space) are skipped; an empty header line would make the Python
`header[0]` raise IndexError.  Note the source resets `encoding = None` on
every non-continuation header line (line 316), so only an encoding header on
the final header line survives; this is modelled faithfully. -/
def parseCommitHeaders : List String → PCHeaders → Except String PCHeaders
  | [], st => .ok st
  | h :: rest, st =>
    match h.data with
    | [] => .error "IndexError: string index out of range"
    | c :: _ =>
      if c = ' ' then parseCommitHeaders rest st
      else
        match pySplitOnce h " " with
        | none => .error "ValueError: need more than 1 value to unpack"
        | some (hk, hd) =>
          let st := { st with encoding := none }
          if hk = "tree" then parseCommitHeaders rest { st with treehash := hd }
          else if hk = "parent" then
            parseCommitHeaders rest { st with parents := st.parents ++ [hd] }
          else if hk = "author" then
            match pySplitOnce hd "> " with
            | none => .error "ValueError: need more than 1 value to unpack"
            | some (a, ad) =>
              parseCommitHeaders rest { st with author := a ++ ">", author_date := ad }
          else if hk = "committer" then
            match pySplitOnce hd "> " with
            | none => .error "ValueError: need more than 1 value to unpack"
            | some (a, ad) =>
              parseCommitHeaders rest { st with committer := a ++ ">", committer_date := ad }
          else if hk = "encoding" then parseCommitHeaders rest { st with encoding := some hd }
          else if hk = "gpgsig" then parseCommitHeaders rest st
          else .error "Unexpected commit header"

/-- CatFileInput.parse_commit (lines 298-342), applied to the (kind, contents)
pair that _parse_object read from the object store.  The kind check (lines
304-306) constructs an `Exception(...)` but never raises it — the `raise`
keyword is missing in the source — so a mismatched kind has no effect and the
body is parsed regardless; `kind` is therefore unused below.  `reencode enc m`
stands for the `m.decode(enc)/…encode('utf-8')` re-encoding step (lines
336-340), which no claim depends on. -/
def parseCommit (reencode : String → String → String) (kind : String)
    (response : String) : Except String Commit :=
  match pySplitOnce response "\n\n" with
  | none => .error "ValueError: need more than 1 value to unpack"
  | some (headers, msg) =>
    match parseCommitHeaders (pySplitNl headers) ⟨"", [], "", "", "", "", none⟩ with
    | .error e => .error e
    | .ok st =>
      let msgOut := match st.encoding with
        | none => msg
        | some enc => reencode enc msg
      .ok { treehash := st.treehash, parents := st.parents, author := st.author,
            author_date := st.author_date, committer := st.committer,
            committer_date := st.committer_date, msg := msgOut }

/-- Header loop of CatFileInput.parse_tag (lines 353-366). -/
def parseTagHeaders : List String → Tag → Except String Tag
  | [], t => .ok t
  | h :: rest, t =>
    match pySplitOnce h " " with
    | none => .error "ValueError: need more than 1 value to unpack"
    | some (hk, hd) =>
      if hk = "object" then parseTagHeaders rest { t with object_hash := hd }
      else if hk = "type" then parseTagHeaders rest { t with object_type := hd }
      else if hk = "tag" then parseTagHeaders rest { t with name := hd }
      else if hk = "tagger" then
        match pySplitOnce hd "> " with
        | none => .error "ValueError: need more than 1 value to unpack"
        | some (a, ad) =>
          parseTagHeaders rest { t with tagger := a ++ ">", tagger_date := ad }
      else .error "Unexpected tag header"

/-- CatFileInput.parse_tag (lines 344-368).  As in parse_commit, the kind
check (lines 348-350) constructs an exception without raising it, so a
mismatched kind has no effect; the message (including any signature block)
is kept verbatim. -/
def parseTag (kind : String) (response : String) : Except String Tag :=
  match pySplitOnce response "\n\n" with
  | none => .error "ValueError: need more than 1 value to unpack"
  | some (headers, msg) =>
    match parseTagHeaders (pySplitNl headers) ⟨"", "", "", "", "", ""⟩ with
    | .error e => .error e
    | .ok t => .ok { t with msg := msg }

/-- TreeEntry (lines 120-152): a mode, an optional known hash, and an optional
in-memory child map; a missing hash marks a dirty entry.  The source mutates
single-owner dirty entries in place behind an immutable facade; here every
operation passes values.  Python identity tests (`is`) on entries are modelled
by structural equality of values, which agrees with identity on every path the
claims exercise (an in-place removal always changes the value, and an untouched
receiver is returned as-is). -/
inductive TreeEntry where
  | mk (mode : String) (githash : Option String) (sub : Option (List (String × TreeEntry)))
deriving Repr, Inhabited

/-- Mode of an entry. -/
def TreeEntry.mode : TreeEntry → String
  | .mk m _ _ => m

/-- Known hash of an entry (none when dirty). -/
def TreeEntry.githash : TreeEntry → Option String
  | .mk _ g _ => g

/-- In-memory child list of an entry ([] when absent). -/
def TreeEntry.subList : TreeEntry → List (String × TreeEntry)
  | .mk _ _ (some s) => s
  | .mk _ _ none => []

mutual
/-- Structural equality of TreeEntry values (used to model the `is` identity
tests of remove_path, line 222). -/
def teBeq : TreeEntry → TreeEntry → Bool
  | .mk m1 g1 none, .mk m2 g2 none => m1 == m2 && g1 == g2
  | .mk m1 g1 (some s1), .mk m2 g2 (some s2) => m1 == m2 && g1 == g2 && subBeq s1 s2
  | _, _ => false
/-- Structural equality of child lists. -/
def subBeq : List (String × TreeEntry) → List (String × TreeEntry) → Bool
  | [], [] => true
  | (n1, e1) :: r1, (n2, e2) :: r2 => n1 == n2 && teBeq e1 e2 && subBeq r1 r2
  | _, _ => false
end

/-- One NUL-delimited record sent to git mktree for an entry
(TreeImportStream.write_tree, lines 462-473): mode, object type, hash, name. -/
def treeEntryLine (name mode githash : String) : String :=
  mode ++ " " ++ object_type_from_mode mode ++ " " ++ githash ++ "\t" ++ name

/-- Insertion into a name-sorted entry list. -/
def insertByName (p : String × String × String) :
    List (String × String × String) → List (String × String × String)
  | [] => [p]
  | q :: rest => if q.1 < p.1 then q :: insertByName p rest else p :: q :: rest

/-- Sort entry records by name (git stores tree entries in canonical order). -/
def sortByName (l : List (String × String × String)) : List (String × String × String) :=
  l.foldr insertByName []

/-- Modelled from the spec: the tree-writer channel (git mktree) is an external
collaborator, described in section 6 of the spec; it is content-addressed — the
resulting hash is a function of the canonically ordered (name, mode, hash)
entry records — and per the data model the empty map produces the well-known
empty-tree sentinel. -/
def mktreeHash (ents : List (String × String × String)) : String :=
  match ents with
  | [] => GIT_EMPTY_TREE_HASH
  | _ => "tree(" ++ String.intercalate "\x00"
      ((sortByName ents).map (fun e => treeEntryLine e.1 e.2.1 e.2.2)) ++ ")"

mutual
/-- TreeEntry.write_subentries (lines 161-176): for a dirty entry, canonicalize
the children (write_subentries is invoked on each dirty child; it is the
identity on clean ones), drop every child whose resulting hash is the
empty-tree sentinel, write the surviving entries through the tree writer and
stamp the resulting hash.  The children of the result are the canonicalized
survivors, matching the source's in-place update of _sub_entries.  Clean
entries are returned unchanged (the `githash is None` guard, line 162). -/
def writeSubentries : TreeEntry → TreeEntry
  | .mk m none (some subs) =>
    let written := writeSubList subs
    let kept := written.filter (fun p => !(p.2.githash == some GIT_EMPTY_TREE_HASH))
    .mk m (some (mktreeHash (kept.map (fun p => (p.1, p.2.mode, (p.2.githash).getD "None")))))
      (some kept)
  | e => e
/-- write_subentries applied across a child list (the loop of lines 164-169). -/
def writeSubList : List (String × TreeEntry) → List (String × TreeEntry)
  | [] => []
  | (n, e) :: rest => (n, writeSubentries e) :: writeSubList rest
end

/-- Tail of _TreeTransformerBase.transform (lines 580-589): the recursive
transformation produced `finaltree`, with `none` meaning the entire root was
deleted; a deleted root yields the empty-tree sentinel, otherwise the tree is
canonicalized and its now-known hash returned.  _transform_internal itself is
kept abstract here (only its result reaches these lines). -/
def transformFinish (finaltree : Option TreeEntry) : String :=
  match finaltree with
  | none => GIT_EMPTY_TREE_HASH
  | some t => ((writeSubentries t).githash).getD "None"

/-- Child map of a directory entry: the in-memory map when present, otherwise
the parsed tree fetched from the object store (`fm` is the store's hash → parsed
tree table, fm.get_tree). -/
def dirSubs (fm : String → List (String × TreeEntry)) : TreeEntry → List (String × TreeEntry)
  | .mk _ _ (some s) => s
  | .mk _ g none => fm (g.getD "None")

/-- TreeEntry.get_subentries (lines 154-159): raises ValueError on a
non-directory, otherwise yields the child map. -/
def getSubentries (fm : String → List (String × TreeEntry)) (t : TreeEntry) :
    Except String (List (String × TreeEntry)) :=
  if t.mode ≠ "40000" then .error "ValueError: sub_entries on a non-directory"
  else .ok (dirSubs fm t)

/-- Python `del d[name]` on a child map. -/
def eraseKey (name : String) (l : List (String × TreeEntry)) : List (String × TreeEntry) :=
  l.filter (fun p => !(p.1 == name))

/-- Python `d[name] = entry` on a child map. -/
def setKey (name : String) (entry : TreeEntry) :
    List (String × TreeEntry) → List (String × TreeEntry)
  | [] => [(name, entry)]
  | (k, v) :: rest => if k = name then (name, entry) :: rest else (k, v) :: setKey name entry rest

/-- TreeEntry.remove_entry (lines 178-191): asserts the name has no slash,
returns the receiver unchanged when the name is absent, otherwise produces the
entry without that child (in place when dirty, as a fresh dirty entry when
clean — the same value either way). -/
def removeEntry (fm : String → List (String × TreeEntry)) (t : TreeEntry)
    (name : String) : Except String TreeEntry :=
  if name.data.contains '/' then .error "AssertionError"
  else
    match getSubentries fm t with
    | .error e => .error e
    | .ok r =>
      if (r.lookup name).isSome then .ok (.mk t.mode none (some (eraseKey name r)))
      else .ok t

/-- TreeEntry.add_entry (lines 193-201): asserts the name has no slash; a dirty
receiver is updated in place (same value as rebuilding), a clean receiver has
its child map copied and becomes a fresh dirty entry. -/
def addEntry (fm : String → List (String × TreeEntry)) (t : TreeEntry)
    (name : String) (entry : TreeEntry) : Except String TreeEntry :=
  if name.data.contains '/' then .error "AssertionError"
  else
    match t with
    | .mk m none (some s) => .ok (.mk m none (some (setKey name entry s)))
    | _ =>
      match getSubentries fm t with
      | .error e => .error e
      | .ok r => .ok (.mk t.mode none (some (setKey name entry r)))

/-- TreeEntry.get_path (lines 203-211): walks segment by segment; a
non-directory mid-walk or a missing name yields none. -/
def getPath (fm : String → List (String × TreeEntry)) :
    TreeEntry → List String → Option TreeEntry
  | cur, [] => some cur
  | cur, ps :: rest =>
    if cur.mode ≠ "40000" then none
    else
      match (dirSubs fm cur).lookup ps with
      | none => none
      | some nxt => getPath fm nxt rest

/-- TreeEntry.remove_path (lines 213-224).  A length-one path degenerates to
remove_entry; the empty path would make Python fetch the subentries and then
raise IndexError on `pathsegs[0]`.  The source's `newsub is oldsub` identity
test (line 222) is modelled by structural equality (teBeq): on these paths an
in-place removal always changes the child's value and a not-found child comes
back untouched, so the two coincide. -/
def removePath (fm : String → List (String × TreeEntry)) :
    TreeEntry → List String → Except String TreeEntry
  | t, [p] => removeEntry fm t p
  | t, [] =>
    match getSubentries fm t with
    | .error e => .error e
    | .ok _ => .error "IndexError: list index out of range"
  | t, p :: q :: rest =>
    match getSubentries fm t with
    | .error e => .error e
    | .ok r =>
      match r.lookup p with
      | none => .ok t
      | some oldsub =>
        match removePath fm oldsub (q :: rest) with
        | .error e => .error e
        | .ok newsub =>
          if teBeq newsub oldsub then .ok t
          else addEntry fm t p newsub

/-- The walk of get_path fails at a missing name: every entry traversed on the
way is a directory, and the failing step is a name absent from its parent's
(directory) child map.  This isolates the not-found case, on which remove_path
returns the receiver, from the case where a non-directory is hit mid-walk
(on which remove_path raises ValueError via get_subentries). -/
def missesByName (fm : String → List (String × TreeEntry)) :
    TreeEntry → List String → Bool
  | _, [] => false
  | t, [p] => t.mode == "40000" && ((dirSubs fm t).lookup p).isNone
  | t, p :: q :: rest =>
    t.mode == "40000" &&
      match (dirSubs fm t).lookup p with
      | none => true
      | some sub => missesByName fm sub (q :: rest)

/-- The three return shapes of a commit filter (do_filter lines 820-829):
a replacement Commit, a commit-hash string aliasing this commit to another,
or a (Commit, post-write callback) pair — the callback's effect is recorded
in the notifications log. -/
inductive CFResult where
  | replace (c : Commit)
  | aliasTo (h : String)
  | replaceNotify (c : Commit)
deriving Repr

/-- The callbacks do_filter was configured with (msg_filter, the tree
transformer built from global_file_actions — modelled as the hash → hash
function it computes — and commit_filter). -/
structure FilterConfig where
  msgFilter : Option (String → String)
  treeActions : Option (String → String)
  commitFilter : Option (String → Commit → List String → CFResult)

/-- State threaded through the rewrite loop of do_filter: the revmap (a cons
to the front models a Python dict assignment; processed revs are assigned at
most once), the fast-import mark counter (FastImportStream.next_mark, starting
at 1), the log of written commits (mark, commit), and the log of post-write
callback notifications. -/
structure LoopState where
  revmap : List (String × String)
  nextMark : Nat
  writes : List (String × Commit)
  notes : List String
deriving Repr

/-- The mark string ':%d' fast-import hands back for the n-th written object
(FastImportStream.write_commit, lines 404-424). -/
def mkMark (n : Nat) : String := ":" ++ toString n

/-- do_filter line 810: remap each parent through the revmap; parents absent
from the revmap pass through unchanged (`revmap.get(p, p)`). -/
def remapParents (rm : List (String × String)) (ps : List String) : List String :=
  ps.map (fun p => ((rm.lookup p).getD p))

/-- Lines 806-817 of the loop body: copy the parsed commit, remap its parents,
apply the message filter, then the tree transformer. -/
def pipeline (cfg : FilterConfig) (rm : List (String × String)) (oldcommit : Commit) :
    Commit :=
  let c1 := { oldcommit with parents := remapParents rm oldcommit.parents }
  let c2 := match cfg.msgFilter with
    | none => c1
    | some f => { c1 with msg := f c1.msg }
  match cfg.treeActions with
  | none => c2
  | some g => { c2 with treehash := g c2.treehash }

/-- Lines 831-835: if the final commit differs field-wise from the parsed one,
write it, install old → mark in the revmap and fire the post-write callback;
otherwise do nothing. -/
def finishCommit (st : LoopState) (rev : String) (oldcommit commit : Commit)
    (notify : Bool) : LoopState :=
  if commit = oldcommit then st
  else
    { revmap := (rev, mkMark st.nextMark) :: st.revmap
      nextMark := st.nextMark + 1
      writes := st.writes ++ [(mkMark st.nextMark, commit)]
      notes := if notify then st.notes ++ [mkMark st.nextMark] else st.notes }

/-- One iteration of the rewrite loop of do_filter (lines 795-835) on revision
`rev`: skip revisions already in the revmap, otherwise parse, remap, filter and
conditionally write.  The commit filter receives the original (pre-remap)
parent list. -/
def filterStep (cfg : FilterConfig) (getCommit : String → Commit)
    (st : LoopState) (rev : String) : LoopState :=
  if (st.revmap.lookup rev).isSome then st
  else
    let oldcommit := getCommit rev
    let commit := pipeline cfg st.revmap oldcommit
    match cfg.commitFilter with
    | none => finishCommit st rev oldcommit commit false
    | some cf =>
      match cf rev commit oldcommit.parents with
      | .aliasTo h => if h ≠ rev then { st with revmap := (rev, h) :: st.revmap } else st
      | .replace c => finishCommit st rev oldcommit c false
      | .replaceNotify c => finishCommit st rev oldcommit c true

/-- The whole rewrite loop: fold the loop body over the reverse-topological
revision list. -/
def runFilterLoop (cfg : FilterConfig) (getCommit : String → Commit)
    (revlist : List String) (st : LoopState) : LoopState :=
  revlist.foldl (filterStep cfg getCommit) st

/-- Loop state at entry of do_filter with no persisted revmap: empty revmap,
first mark 1, nothing written. -/
def initialLoopState : LoopState := ⟨[], 1, [], []⟩

/-- Commands update_refs sends to the import channel: ref resets and tag
object writes. -/
inductive RefEffect where
  | resetRef (ref : String) (target : String)
  | writeTag (t : Tag)
deriving Repr

/-- The PGP signature sentinel line update_refs looks for (line 736). -/
def SIG_SEP : String := "\n-----BEGIN PGP SIGNATURE-----\n"

/-- update_refs lines 735-738: strip everything from the signature sentinel on
(before the comparison snapshot is taken); the Bool remembers whether the tag
was signed. -/
def stripSignature (msg : String) : String × Bool :=
  if pyContains msg SIG_SEP then (pySplitHead msg SIG_SEP, true) else (msg, false)

/-- Tag branch of update_refs (lines 720-757): sanity-check the embedded tag
name against the ref path and the target kind (warn and skip on mismatch),
strip any signature block before taking the comparison snapshot, remap the
target through the revmap, apply the message filter and the tag filter, and
only if some field changed emit the backup ref reset (when a backup prefix is
configured; Python truthiness of the prefix string) and the new tag write. -/
def processTagRef (revmap : List (String × String)) (backupPrefix : String)
    (tagFilter : Option (Tag → Tag)) (msgFilter : Option (String → String))
    (refname githash : String) (tagobj : Tag) : List RefEffect :=
  if "refs/tags/" ++ tagobj.name ≠ refname then []
  else if tagobj.object_type ≠ "commit" then []
  else
    let stripped := { tagobj with msg := (stripSignature tagobj.msg).1 }
    let oldtagobj := stripped
    let remapped :=
      match revmap.lookup stripped.object_hash with
      | some nh => { stripped with object_hash := nh }
      | none => stripped
    let filtered1 :=
      match msgFilter with
      | none => remapped
      | some f => { remapped with msg := f remapped.msg }
    let filtered2 :=
      match tagFilter with
      | none => filtered1
      | some tf => tf filtered1
    if filtered2 ≠ oldtagobj then
      (if backupPrefix ≠ "" then
        [RefEffect.resetRef (backupPrefix ++ "/" ++ refname) githash]
      else []) ++ [RefEffect.writeTag filtered2]
    else []

/-- update_refs (lines 703-764) over an already-parsed for-each-ref listing of
(githash, kind, refname) lines; the result is the list of commands sent to
the import channel.  A commit ref found in the revmap is backed up (when a
prefix is configured) and reset to its image; a tag ref goes through
processTagRef;
any other kind raises. -/
def updateRefs (revmap : List (String × String)) (backupPrefix : String)
    (tagFilter : Option (Tag → Tag)) (msgFilter : Option (String → String))
    (getTag : String → Tag) :
    List (String × String × String) → Except String (List RefEffect)
  | [] => .ok []
  | (githash, kind, refname) :: rest =>
    let step : Except String (List RefEffect) :=
      if kind = "commit" then
        .ok (match revmap.lookup githash with
          | some nh =>
            (if backupPrefix ≠ "" then
              [RefEffect.resetRef (backupPrefix ++ "/" ++ refname) githash]
            else []) ++ [RefEffect.resetRef refname nh]
          | none => [])
      else if kind = "tag" then
        .ok (processTagRef revmap backupPrefix tagFilter msgFilter refname githash
              (getTag githash))
      else .error "Unexpected ref to kind"
    match step with
    | .error e => .error e
    | .ok es =>
      match updateRefs revmap backupPrefix tagFilter msgFilter getTag rest with
      | .error e => .error e
      | .ok esr => .ok (es ++ esr)

/-! Statement forms and concrete instances used by the claim theorems. -/

/-- Statement form for the parent-remap property of one loop iteration: the
commit handed to the compare/write step is exactly the pipeline output, its
parent list has the original length, and position by position it carries
revmap[p] for parents in the revmap and p unchanged otherwise. -/
def ParentRemapOK (cfg : FilterConfig) (getCommit : String → Commit)
    (st : LoopState) (rev : String) : Prop :=
  filterStep cfg getCommit st rev
      = finishCommit st rev (getCommit rev) (pipeline cfg st.revmap (getCommit rev)) false ∧
  (pipeline cfg st.revmap (getCommit rev)).parents.length
      = (getCommit rev).parents.length ∧
  ∀ i : Nat, ((pipeline cfg st.revmap (getCommit rev)).parents)[i]?
      = ((getCommit rev).parents[i]?).map (fun p => ((st.revmap.lookup p).getD p))

/-- Statement form for the write-iff-changed property of one loop iteration:
when the final commit differs from the parsed one, the mark for it is written
and installed in the revmap under the old hash; when they are equal the state
is untouched and the revmap has no entry for the hash. -/
def WriteIffChanged (st : LoopState) (rev : String) (old final : Commit)
    (st2 : LoopState) : Prop :=
  (final ≠ old →
    st2.revmap.lookup rev = some (mkMark st.nextMark) ∧
    st2.writes = st.writes ++ [(mkMark st.nextMark, final)]) ∧
  (final = old → st2 = st ∧ st2.revmap.lookup rev = none)

/-- Statement form for the empty-subtree elision property of
write_subentries: a dirty child that canonicalizes to the empty tree is
omitted from the written parent, whose hash equals that of the parent written
without the child in the first place; no surviving entry carries the sentinel
hash; and a transform whose root was entirely deleted yields the sentinel. -/
def EmptyElisionOK (mode n : String) (c : TreeEntry)
    (l1 l2 : List (String × TreeEntry)) : Prop :=
  (writeSubentries (.mk mode none (some (l1 ++ (n, c) :: l2)))).githash
      = (writeSubentries (.mk mode none (some (l1 ++ l2)))).githash ∧
  (∀ p ∈ (writeSubentries (.mk mode none (some (l1 ++ (n, c) :: l2)))).subList,
      p.2.githash ≠ some GIT_EMPTY_TREE_HASH) ∧
  transformFinish none = GIT_EMPTY_TREE_HASH

/-- A configuration with no filters at all (the empty policy). -/
def cfgEmpty : FilterConfig := ⟨none, none, none⟩

/-- Concrete commit table: every hash parses to one fixed commit with two
parents. -/
def gcW : String → Commit := fun _ =>
  { treehash := "t0", parents := ["p", "q"], author := "A U Thor <a@x>",
    author_date := "100 +0000", committer := "C O Mitter <c@x>",
    committer_date := "200 +0000", msg := "m0" }

/-- Loop state whose revmap already maps parent "p" to "P". -/
def stW : LoopState := ⟨[("p", "P")], 1, [], []⟩

/-- Commit parse table for the gateway trace. -/
def parseW : String → Commit := fun _ =>
  { treehash := "t0", parents := [], author := "a", author_date := "1",
    committer := "c", committer_date := "2", msg := "m0" }

/-- Empty object store (no parsed trees). -/
def fmNil : String → List (String × TreeEntry) := fun _ => []

/-- A dirty directory holding one regular file "a". -/
def tFileDir : TreeEntry :=
  .mk "40000" none (some [("a", .mk "100644" (some "h1") none)])

/-- A dirty directory with no children: canonicalizing it yields the
empty-tree sentinel. -/
def tEmptying : TreeEntry := .mk "40000" none (some [])

/-- A signed annotated tag targeting commit "c1". -/
def tagW : Tag :=
  { object_hash := "c1", object_type := "commit", name := "v1",
    tagger := "T G <t@x>", tagger_date := "300 +0000",
    msg := "hello\n-----BEGIN PGP SIGNATURE-----\nabc" }

/-- Tag table for the reference-updater witness. -/
def getTagW : String → Tag := fun _ => tagW

/-- for-each-ref listing for the reference-updater witness. -/
def refsW : List (String × String × String) :=
  [("h1", "commit", "refs/heads/master"), ("h2", "tag", "refs/tags/v1")]

/-- Mark resolver for the get_mark witness. -/
def rsvW : String → String := fun s => s ++ "R"

/-- Revmap of concrete (non-mark) hashes for the get_mark witness. -/
def rmW : List (String × String) := [("o1", "n1"), ("o2", "n2")]

/-! Helper lemmas. -/

mutual
/-- teBeq is reflexive. -/
theorem teBeq_refl : ∀ t : TreeEntry, teBeq t t = true
  | .mk _ _ none => by simp [teBeq]
  | .mk _ _ (some s) => by simp [teBeq, subBeq_refl s]
/-- subBeq is reflexive. -/
theorem subBeq_refl : ∀ l : List (String × TreeEntry), subBeq l l = true
  | [] => by simp [subBeq]
  | (_, e) :: r => by simp [subBeq, teBeq_refl e, subBeq_refl r]
end

/-- writeSubList distributes over list append. -/
theorem writeSubList_append (a b : List (String × TreeEntry)) :
    writeSubList (a ++ b) = writeSubList a ++ writeSubList b := by
  induction a with
  | nil => simp [writeSubList]
  | cons p rest ih =>
    obtain ⟨n, e⟩ := p
    simp [writeSubList, ih]

/-- The parents of the pipeline output are the remapped original parents:
the message filter and tree transformer leave the parent list alone. -/
theorem pipeline_parents (cfg : FilterConfig) (rm : List (String × String))
    (c : Commit) : (pipeline cfg rm c).parents = remapParents rm c.parents := by
  unfold pipeline
  cases hm : cfg.msgFilter <;> cases ht : cfg.treeActions <;> simp

/-- With an empty revmap and no message/tree filters the pipeline is the
identity. -/
theorem pipeline_empty_id (cfg : FilterConfig) (c : Commit)
    (hm : cfg.msgFilter = none) (ht : cfg.treeActions = none) :
    pipeline cfg [] c = c := by
  unfold pipeline
  rw [hm, ht]
  simp [remapParents]

/-- finishCommit writes and installs the mark exactly when the final commit
differs from the parsed one. -/
theorem finish_write_iff (st : LoopState) (rev : String) (old final : Commit)
    (notify : Bool) (hrev : st.revmap.lookup rev = none) :
    WriteIffChanged st rev old final (finishCommit st rev old final notify) := by
  constructor
  · intro hne
    unfold finishCommit
    rw [if_neg (by exact fun h => hne h)]
    exact ⟨by simp [List.lookup], rfl⟩
  · intro heq
    unfold finishCommit
    rw [if_pos heq]
    exact ⟨rfl, hrev⟩

/-- With the empty policy one loop iteration leaves the initial state
untouched. -/
theorem filter_step_empty (cfg : FilterConfig) (getCommit : String → Commit)
    (rev : String) (hm : cfg.msgFilter = none) (ht : cfg.treeActions = none)
    (hc : cfg.commitFilter = none ∨
      cfg.commitFilter = some (fun _ c _ => CFResult.replace c)) :
    filterStep cfg getCommit initialLoopState rev = initialLoopState := by
  have hp : pipeline cfg initialLoopState.revmap (getCommit rev) = getCommit rev :=
    pipeline_empty_id cfg (getCommit rev) hm ht
  rcases hc with hc | hc <;>
    simp [filterStep, initialLoopState, hc, finishCommit] <;>
    simp [initialLoopState] at hp <;>
    simp [hp]

/-- With the empty policy the whole rewrite loop leaves the initial state
untouched. -/
theorem run_loop_empty (cfg : FilterConfig) (getCommit : String → Commit)
    (revlist : List String) (hm : cfg.msgFilter = none)
    (ht : cfg.treeActions = none)
    (hc : cfg.commitFilter = none ∨
      cfg.commitFilter = some (fun _ c _ => CFResult.replace c)) :
    runFilterLoop cfg getCommit revlist initialLoopState = initialLoopState := by
  induction revlist with
  | nil => rfl
  | cons r rest ih =>
    unfold runFilterLoop at ih ⊢
    rw [List.foldl_cons, filter_step_empty cfg getCommit r hm ht hc]
    exact ih

/-- With an empty revmap, no message filter and no (or an identity) tag
filter, the tag branch of update_refs emits nothing. -/
theorem process_tag_empty (backupPrefix refname githash : String)
    (tagFilter : Option (Tag → Tag))
    (htf : tagFilter = none ∨ tagFilter = some (fun t => t)) (tg : Tag) :
    processTagRef [] backupPrefix tagFilter none refname githash tg = [] := by
  unfold processTagRef
  by_cases h1 : "refs/tags/" ++ tg.name ≠ refname
  · rw [if_pos h1]
  · rw [if_neg h1]
    by_cases h2 : tg.object_type ≠ "commit"
    · rw [if_pos h2]
    · rw [if_neg h2]
      rcases htf with htf | htf <;> simp [htf]

/-- With an empty revmap and the empty policy, update_refs emits no effects
for any listing of commit and tag refs. -/
theorem update_refs_empty (backupPrefix : String) (tagFilter : Option (Tag → Tag))
    (getTag : String → Tag) (refs : List (String × String × String))
    (htf : tagFilter = none ∨ tagFilter = some (fun t => t))
    (hk : ∀ r ∈ refs, r.2.1 = "commit" ∨ r.2.1 = "tag") :
    updateRefs [] backupPrefix tagFilter none getTag refs = .ok [] := by
  induction refs with
  | nil => rfl
  | cons r rest ih =>
    obtain ⟨githash, kind, refname⟩ := r
    have hrest := ih (fun q hq => hk q (List.mem_cons_of_mem _ hq))
    have hkr := hk _ (List.mem_cons_self _ _)
    simp only at hkr
    unfold updateRefs
    rcases hkr with hkind | hkind <;> subst hkind
    · simp [hrest]
    · simp [hrest, process_tag_empty backupPrefix refname githash tagFilter htf
        (getTag githash)]

/-! Claim theorems. -/

/-- C1: for every commit processed by the rewrite loop (its hash not yet in
the revmap, no commit filter configured), the commit handed to the
compare/write step has each original parent that is a key of the revmap
replaced by its image, each other parent unchanged, at the same positions and
with the order and number of parents preserved. -/
theorem parent_remap_complete (cfg : FilterConfig) (getCommit : String → Commit)
    (st : LoopState) (rev : String)
    (hcf : cfg.commitFilter = none)
    (hrev : st.revmap.lookup rev = none) :
    ParentRemapOK cfg getCommit st rev := by
  refine ⟨?_, ?_, ?_⟩
  · simp [filterStep, hrev, hcf]
  · rw [pipeline_parents]
    simp [remapParents]
  · intro i
    rw [pipeline_parents]
    simp [remapParents]

/-- Witness for C1 at a concrete state: parent "p" is in the revmap,
parent "q" is not. -/
theorem parent_remap_complete_w : ParentRemapOK cfgEmpty gcW stW "r" :=
  parent_remap_complete cfgEmpty gcW stW "r" rfl (by decide)

/-- C2: with no message filter, no tree actions and no (or an
input-returning) commit filter, the rewrite loop ends with an empty revmap
and no written commits, and the reference updater — run with no (or an
identity) tag filter on any listing of commit and tag refs — emits no ref
resets and no tag writes, so every ref stays where it started. -/
theorem empty_policy_identity (cfg : FilterConfig) (getCommit : String → Commit)
    (revlist : List String) (getTag : String → Tag)
    (tagFilter : Option (Tag → Tag)) (backupPrefix : String)
    (refs : List (String × String × String))
    (hm : cfg.msgFilter = none) (ht : cfg.treeActions = none)
    (hc : cfg.commitFilter = none ∨
      cfg.commitFilter = some (fun _ c _ => CFResult.replace c))
    (htf : tagFilter = none ∨ tagFilter = some (fun t => t))
    (hk : ∀ r ∈ refs, r.2.1 = "commit" ∨ r.2.1 = "tag") :
    runFilterLoop cfg getCommit revlist initialLoopState = initialLoopState ∧
    updateRefs (runFilterLoop cfg getCommit revlist initialLoopState).revmap
        backupPrefix tagFilter cfg.msgFilter getTag refs = .ok [] := by
  have h1 := run_loop_empty cfg getCommit revlist hm ht hc
  refine ⟨h1, ?_⟩
  rw [h1, hm]
  exact update_refs_empty backupPrefix tagFilter getTag refs htf hk

/-- Witness for C2 at a concrete history of two revisions and a commit ref
plus a tag ref. -/
theorem empty_policy_identity_w :
    runFilterLoop cfgEmpty gcW ["r1", "r2"] initialLoopState = initialLoopState ∧
    updateRefs (runFilterLoop cfgEmpty gcW ["r1", "r2"] initialLoopState).revmap
        "refs/original" none cfgEmpty.msgFilter getTagW refsW = .ok [] :=
  empty_policy_identity cfgEmpty gcW ["r1", "r2"] getTagW none "refs/original" refsW
    rfl rfl (Or.inl rfl) (Or.inl rfl) (by decide)

/-- C3: for a processed revision, with no commit filter or with a commit
filter returning a Commit, a new commit is written and the old-hash-to-mark
entry installed in the revmap exactly when the final commit differs
field-wise from the parsed one; when they are field-wise equal nothing is
written, the state is untouched and the revmap has no entry for the hash. -/
theorem write_iff_changed (cfg : FilterConfig) (getCommit : String → Commit)
    (st : LoopState) (rev : String)
    (hrev : st.revmap.lookup rev = none) :
    (cfg.commitFilter = none →
      WriteIffChanged st rev (getCommit rev)
        (pipeline cfg st.revmap (getCommit rev))
        (filterStep cfg getCommit st rev)) ∧
    (∀ g : String → Commit → List String → Commit,
      cfg.commitFilter = some (fun r c ps => CFResult.replace (g r c ps)) →
      WriteIffChanged st rev (getCommit rev)
        (g rev (pipeline cfg st.revmap (getCommit rev)) (getCommit rev).parents)
        (filterStep cfg getCommit st rev)) := by
  constructor
  · intro hcf
    have hstep : filterStep cfg getCommit st rev
        = finishCommit st rev (getCommit rev)
            (pipeline cfg st.revmap (getCommit rev)) false := by
      simp [filterStep, hrev, hcf]
    rw [hstep]
    exact finish_write_iff st rev _ _ false hrev
  · intro g hcf
    have hstep : filterStep cfg getCommit st rev
        = finishCommit st rev (getCommit rev)
            (g rev (pipeline cfg st.revmap (getCommit rev)) (getCommit rev).parents)
            false := by
      simp [filterStep, hrev, hcf]
    rw [hstep]
    exact finish_write_iff st rev _ _ false hrev

/-- Witness for C3 at a concrete state in which the parent remap changes the
commit (so the write branch fires). -/
theorem write_iff_changed_w :
    WriteIffChanged stW "r" (gcW "r") (pipeline cfgEmpty stW.revmap (gcW "r"))
      (filterStep cfgEmpty gcW stW "r") :=
  (write_iff_changed cfgEmpty gcW stW "r" (by decide)).1 rfl

/-- C4: the stored-kind check of parse_commit and parse_tag has no effect —
the source constructs the kind-mismatch exception but never raises it (the
`raise` keyword is missing, unlike in parse_tree and parse_blob) — so both
happily parse a payload whose stored kind is wrong instead of failing. -/
theorem parse_kind_mismatch_ignored :
    parseCommit (fun _ m => m) "blob"
        "tree t1\nauthor An Author <a@x> 100 +0000\ncommitter A C <c@x> 200 +0000\n\nhello\n"
      = .ok { treehash := "t1", parents := [], author := "An Author <a@x>",
              author_date := "100 +0000", committer := "A C <c@x>",
              committer_date := "200 +0000", msg := "hello\n" } ∧
    parseTag "tree"
        "object o1\ntype commit\ntag v1\ntagger T G <t@x> 300 +0000\n\nmsg\n"
      = .ok { object_hash := "o1", object_type := "commit", name := "v1",
              tagger := "T G <t@x>", tagger_date := "300 +0000", msg := "msg\n" } := by
  constructor <;> rfl

/-- C5: the gateway does not return copies on cache hits.  Trace: a first
get_commit("h") misses and returns a copy; a second returns the cached record
itself; mutating that record's msg and reading a third time yields the
mutated record, not the originally parsed commit. -/
theorem get_commit_hit_no_copy :
    (let s1 := (gwGetCommit parseW ⟨[], []⟩ "h").2
     let rs2 := gwGetCommit parseW s1 "h"
     let s3 := gwSetMsg rs2.2 rs2.1 "MUTATED"
     let rs4 := gwGetCommit parseW s3 "h"
     gwRead rs4.2 rs4.1 ≠ parseW "h" ∧ (gwRead rs4.2 rs4.1).msg = "MUTATED") := by
  decide

/-- C7 counterexample: a dirty entry (no known hash) compared with itself is
equal — TreeEntry.__eq__ short-circuits on `self is other` (line 138) —
contradicting the claim that dirty entries are never equal, even to
themselves. -/
theorem tree_entry_eq_dirty_self :
    treeEntryEqRef [("40000", none)] 0 0 = true := by decide

/-- C7 (amended): entry equality holds iff the two refs are the same object,
or both entries carry equal modes and the same known hash; in particular two
distinct dirty entries are never equal. -/
theorem tree_entry_eq_iff (store : List (String × Option String)) (i j : Nat) :
    treeEntryEqRef store i j = true ↔
      i = j ∨ ∃ m h, store[i]? = some (m, some h) ∧ store[j]? = some (m, some h) := by
  unfold treeEntryEqRef
  rcases hi : store[i]? with _ | ⟨m1, g1⟩ <;> rcases hj : store[j]? with _ | ⟨m2, g2⟩ <;>
    simp [hi, hj, beq_iff_eq]
  rcases g1 with _ | h1 <;> rcases g2 with _ | h2 <;> simp

/-- C6: write_subentries elides emptied children: a dirty child that
canonicalizes to the empty-tree sentinel is removed before the parent is
written, the written parent keeps no entry carrying the sentinel hash, and
its hash equals the hash the parent would have had if the entry had never
existed; and a transform whose root is entirely deleted returns the
empty-tree sentinel hash. -/
theorem empty_dirs_never_persist (mode n : String) (c : TreeEntry)
    (l1 l2 : List (String × TreeEntry))
    (hc : (writeSubentries c).githash = some GIT_EMPTY_TREE_HASH) :
    EmptyElisionOK mode n c l1 l2 := by
  have hlist : (writeSubList (l1 ++ (n, c) :: l2)).filter
        (fun p => !(p.2.githash == some GIT_EMPTY_TREE_HASH))
      = (writeSubList (l1 ++ l2)).filter
        (fun p => !(p.2.githash == some GIT_EMPTY_TREE_HASH)) := by
    rw [writeSubList_append, writeSubList_append]
    simp [writeSubList, List.filter_append, hc]
  refine ⟨?_, ?_, rfl⟩
  · simp only [writeSubentries]
    rw [hlist]
  · intro p hp
    simp only [writeSubentries, TreeEntry.subList] at hp
    rw [List.mem_filter] at hp
    intro heq
    rw [heq] at hp
    simp at hp

/-- Witness for C6: the child "b" is a dirty directory that empties; the
sibling "a" is a regular file. -/
theorem empty_dirs_never_persist_w :
    EmptyElisionOK "40000" "b" tEmptying
      [("a", TreeEntry.mk "100644" (some "h1") none)] [] :=
  empty_dirs_never_persist "40000" "b" tEmptying _ _
    (by simp [tEmptying, writeSubentries, writeSubList, mktreeHash, TreeEntry.githash])

/-- C8 counterexample: with a regular file at "a", the path ["a", "b"] does
not exist (get_path finds nothing), yet remove_path raises ValueError via
get_subentries on the non-directory instead of returning the receiver
unchanged. -/
theorem remove_path_nondir_raises :
    getPath fmNil tFileDir ["a", "b"] = none ∧
    removePath fmNil tFileDir ["a", "b"]
      = .error "ValueError: sub_entries on a non-directory" ∧
    removePath fmNil tFileDir ["a", "b"] ≠ .ok tFileDir := by
  refine ⟨rfl, rfl, ?_⟩
  intro h
  rw [show removePath fmNil tFileDir ["a", "b"]
      = Except.error "ValueError: sub_entries on a non-directory" from rfl] at h
  exact Except.noConfusion h

/-- C8 (amended): when the walk fails at a missing name — every entry
traversed is a directory and no segment contains a slash — remove_path
returns the receiver unchanged (and get_path indeed finds nothing); when an
intermediate segment names a non-directory, remove_path instead raises. -/
theorem remove_path_missing_name_id (fm : String → List (String × TreeEntry)) :
    ∀ (t : TreeEntry) (ps : List String),
      (∀ s ∈ ps, s.data.contains '/' = false) →
      missesByName fm t ps = true →
      removePath fm t ps = .ok t ∧ getPath fm t ps = none
  | _, [], _, hmiss => by simp [missesByName] at hmiss
  | t, [p], hseg, hmiss => by
    rw [missesByName, Bool.and_eq_true] at hmiss
    obtain ⟨hmode, hnone⟩ := hmiss
    have hmode : t.mode = "40000" := by simpa using hmode
    have hp : (dirSubs fm t).lookup p = none := by simpa using hnone
    have hslash : '/' ∉ p.data := by simpa using hseg p (List.mem_singleton_self p)
    constructor
    · simp [removePath, removeEntry, hslash, getSubentries, hmode, hp]
    · simp [getPath, hmode, hp]
  | t, p :: q :: rest, hseg, hmiss => by
    rw [missesByName, Bool.and_eq_true] at hmiss
    obtain ⟨hmode, hrec⟩ := hmiss
    have hmode : t.mode = "40000" := by simpa using hmode
    cases hsub : (dirSubs fm t).lookup p with
    | none =>
      constructor
      · simp [removePath, getSubentries, hmode, hsub]
      · simp [getPath, hmode, hsub]
    | some sub =>
      rw [hsub] at hrec
      have ih := remove_path_missing_name_id fm sub (q :: rest)
        (fun s hs => hseg s (List.mem_cons_of_mem _ hs)) hrec
      constructor
      · simp [removePath, getSubentries, hmode, hsub, ih.1, teBeq_refl]
      · rw [show getPath fm t (p :: q :: rest) = getPath fm sub (q :: rest) from by
          simp [getPath, hmode, hsub]]
        exact ih.2

/-- Witness for C8 (amended): removing the absent name "zz" from a directory
leaves it untouched. -/
theorem remove_path_missing_name_id_w :
    removePath fmNil tFileDir ["zz"] = .ok tFileDir ∧
    getPath fmNil tFileDir ["zz"] = none :=
  remove_path_missing_name_id fmNil tFileDir ["zz"] (by decide) (by decide)

/-- C9: for an annotated tag whose message contains a signature block, whose
target is not in the revmap, with consistent tag name and commit target and
with no message filter and no tag filter configured — or filters that return
their input — the reference updater emits nothing: the signature is stripped
before the comparison snapshot is taken, so stripping alone never triggers a
rewrite or a backup. -/
theorem signature_strip_no_rewrite (revmap : List (String × String))
    (backupPrefix refname githash : String) (t : Tag)
    (msgFilter : Option (String → String)) (tagFilter : Option (Tag → Tag))
    (hsig : pyContains t.msg SIG_SEP = true)
    (hmf : msgFilter = none ∨ msgFilter = some (fun m => m))
    (htf : tagFilter = none ∨ tagFilter = some (fun tg => tg))
    (hrm : revmap.lookup t.object_hash = none)
    (hname : "refs/tags/" ++ t.name = refname)
    (htype : t.object_type = "commit") :
    processTagRef revmap backupPrefix tagFilter msgFilter refname githash t = [] := by
  unfold processTagRef
  rw [if_neg (by simp [hname]), if_neg (by simp [htype])]
  rcases hmf with hmf | hmf <;> rcases htf with htf | htf <;> simp [hrm, hmf, htf]

/-- Witness for C9 at a concrete signed tag whose target "c1" is outside the
revmap, with input-returning message and tag filters configured. -/
theorem signature_strip_no_rewrite_w :
    processTagRef [("zz", "ww")] "refs/original" (some (fun tg => tg))
      (some (fun m => m)) "refs/tags/v1" "tagh" tagW = [] :=
  signature_strip_no_rewrite [("zz", "ww")] "refs/original" "refs/tags/v1" "tagh" tagW
    (some (fun m => m)) (some (fun tg => tg))
    (by decide) (Or.inr rfl) (Or.inr rfl) (by decide) rfl rfl

/-- C10: get_mark is the identity on strings that do not begin with ':' and
does not consult the import channel for them; only ':'-strings are forwarded
for resolution; consequently the persistent-revmap writer maps every
already-concrete hash value to itself. -/
theorem get_mark_identity (resolve : String → String) (m : String)
    (rm : List (String × String)) :
    (pyStartsWithChar m ':' = false → fmGetMark resolve m = (m, false)) ∧
    (pyStartsWithChar m ':' = true → fmGetMark resolve m = (resolve m, true)) ∧
    ((∀ p ∈ rm, pyStartsWithChar p.2 ':' = false) →
      writeRevmapPairs resolve rm = rm) := by
  refine ⟨fun h => by simp [fmGetMark, h], fun h => by simp [fmGetMark, h], ?_⟩
  induction rm with
  | nil => exact fun _ => rfl
  | cons p rest ih =>
    intro h
    have hp : pyStartsWithChar p.2 ':' = false := h p (List.mem_cons_self p rest)
    have hrest := ih (fun q hq => h q (List.mem_cons_of_mem p hq))
    simp only [writeRevmapPairs, List.map_cons] at hrest ⊢
    rw [show fmGetMark resolve p.2 = (p.2, false) by simp [fmGetMark, hp]]
    simp [hrest]

/-- Witness for C10 at a concrete non-mark string and a revmap of concrete
hashes. -/
theorem get_mark_identity_w :
    fmGetMark rsvW "abc123" = ("abc123", false) ∧
    writeRevmapPairs rsvW rmW = rmW :=
  ⟨(get_mark_identity rsvW "abc123" rmW).1 (by decide),
   (get_mark_identity rsvW "abc123" rmW).2.2 (by decide)⟩

end FastFilterBranch
